import Mathlib

/-!
Shallow embedding of the `httpmiddleware` ingress-logging middleware
(repository `muhammad-fakhri/httpmiddleware`).

The embedding translates the Go source files `constant.go`, the config
file (`Config`, `ExcludeOption`, `FieldOption`, `NewConfig`,
`defaultConfig` and the policy methods) and `log_ingress.go`
(`IngressLog`, `Enforce`/`EnforceWithParams`, `log`, `buildLogRequest`,
`getRequestBody`, `getBodyBytes`, `appendContextDataAndSetValue`) into
pure Lean definitions.  The external structured-logging collaborator
(`github.com/muhammad-fakhri/log`) is not part of this repository; the
pieces of it that the middleware's behaviour depends on (the
response-recording writer and the context-attachment helper) are
modelled from the specification and marked as such in their doc
comments.
-/

namespace Httpmiddleware

/-! ## Constants (`constant.go`) -/

def FieldType : String := "type"

def FieldURL : String := "url_path"

def FieldReqHeader : String := "req_header"

def FieldReqBody : String := "req_body"

def FieldResponseHeader : String := "rsp_header"

def FieldStatus : String := "status"

def FieldResponseBody : String := "rsp_body"

def FieldDurationMs : String := "duration_ms"

def FieldReqTimestamp : String := "req_timestamp"

/-- `ExcludeLog = true` in `constant.go`. -/
def ExcludeLog : Bool := true

/-- `IncludeLog = false` in `constant.go`. -/
def IncludeLog : Bool := false

def headerNameRequestID : String := "x-request-id"

/-- `wipedMessage = "-"` in `constant.go`. -/
def wipedMessage : String := "-"

/-- `valueLogTypeIngress = "ingress_http"` in `log_ingress.go`. -/
def valueLogTypeIngress : String := "ingress_http"

/-! ## HTTP headers

Go's `net/http.Header` is a `map[string][]string` whose access methods
(`Get`, `Set`, `Del`, `Add`) canonicalise the key with
`textproto.CanonicalMIMEHeaderKey` before touching the map.  We embed a
header as an association list from key to value list, and translate the
canonicalisation function faithfully: if the key contains a byte that is
not a valid token byte it is returned unchanged, otherwise letters are
upper-cased at the start and after each hyphen and lower-cased
elsewhere. -/

/-- Valid header-field token bytes, from Go `textproto`'s
`validHeaderFieldByte` table: alphanumerics plus
`! # $ % & ' * + - . ^ _ \x60 | ~` (listed here by ASCII code). -/
def isTokenChar (c : Char) : Bool :=
  c.isAlphanum ||
    [33, 35, 36, 37, 38, 39, 42, 43, 45, 46, 94, 95, 96, 124, 126].contains c.toNat

/-- Case-normalisation pass of `CanonicalMIMEHeaderKey`: upper-case a
letter at the start of the key or right after a hyphen, lower-case all
other letters. -/
def canonChars : Bool → List Char → List Char
  | _, [] => []
  | upper, c :: rest =>
    let c2 := if upper then c.toUpper else c.toLower
    c2 :: canonChars (c2 == '-') rest

/-- Go `textproto.CanonicalMIMEHeaderKey`. -/
def canonicalMIMEHeaderKey (s : String) : String :=
  if s.data.all isTokenChar then String.mk (canonChars true s.data) else s

/-- `net/http.Header`, embedded as an association list. -/
abbrev Header : Type := List (String × List String)

/-- `Header.Clone` returns a (deep) copy; as a value it is the same
header. -/
def Header.clone (h : Header) : Header := h

/-- `Header.Del` deletes the entry for the canonicalised key. -/
def Header.Del (h : Header) (key : String) : Header :=
  List.filter (fun kv => kv.fst != canonicalMIMEHeaderKey key) h

/-- `Header.Get` returns the first value associated with the
canonicalised key, or `""` when the key is absent. -/
def Header.Get (h : Header) (key : String) : String :=
  match List.find? (fun kv => kv.fst == canonicalMIMEHeaderKey key) h with
  | some (_, v :: _) => v
  | _ => ""

/-- `Header.Set` replaces the values associated with the canonicalised
key by the single given value. -/
def Header.Set (h : Header) (key value : String) : Header :=
  let ck := canonicalMIMEHeaderKey key
  List.filter (fun kv => kv.fst != ck) h ++ [(ck, [value])]

/-! ## Configuration (`Config`, `ExcludeOption`, `FieldOption`) -/

structure ExcludeOption where
  RequestHeader : Bool
  RequestBody : Bool
  ResponseHeader : Bool
  ResponseBody : Bool
  SuccessResponseBody : Bool
  SuccessRequest : Bool
  RequestHeaderKeys : List String
deriving DecidableEq

/-- The Go zero value `ExcludeOption{}`. -/
def ExcludeOption.zero : ExcludeOption :=
  { RequestHeader := false
    RequestBody := false
    ResponseHeader := false
    ResponseBody := false
    SuccessResponseBody := false
    SuccessRequest := false
    RequestHeaderKeys := [] }

structure FieldOption where
  EventPrefix : String
deriving DecidableEq

/-- `Config`; the Go pointer fields `*ExcludeOption` and `*FieldOption`
become `Option`s, `nil` being `none`. -/
structure Config where
  ExcludeOpt : Option ExcludeOption
  DisableIngressLog : Bool
  FieldOpt : Option FieldOption
deriving DecidableEq

/-- `defaultConfig()` builds `&Config{ExcludeOpt: &ExcludeOption{}}`. -/
def defaultConfig : Config :=
  { ExcludeOpt := some ExcludeOption.zero
    DisableIngressLog := false
    FieldOpt := none }

/-- `NewConfig` (value-level view): installs an empty `ExcludeOption`
when the given config has none.  (The pointer/aliasing behaviour of the
Go function is modelled separately by `NewConfigHeap`.) -/
def NewConfig (c : Config) : Config :=
  match c.ExcludeOpt with
  | none => { c with ExcludeOpt := some ExcludeOption.zero }
  | some _ => c

/-- `Config.LogRequestHeader`. -/
def Config.LogRequestHeader (c : Config) : Bool :=
  match c.ExcludeOpt with
  | none => IncludeLog
  | some e => e.RequestHeader == IncludeLog

/-- `Config.LogRequestBody`. -/
def Config.LogRequestBody (c : Config) : Bool :=
  match c.ExcludeOpt with
  | none => IncludeLog
  | some e => e.RequestBody == IncludeLog

/-- `Config.LogResponseHeader`. -/
def Config.LogResponseHeader (c : Config) : Bool :=
  match c.ExcludeOpt with
  | none => IncludeLog
  | some e => e.ResponseHeader == IncludeLog

/-- `Config.LogResponseBody`. -/
def Config.LogResponseBody (c : Config) : Bool :=
  match c.ExcludeOpt with
  | none => IncludeLog
  | some e => e.ResponseBody == IncludeLog

/-- `Config.LogSuccessResponseBody`. -/
def Config.LogSuccessResponseBody (c : Config) : Bool :=
  match c.ExcludeOpt with
  | none => IncludeLog
  | some e => e.SuccessResponseBody == IncludeLog

/-- `Config.LogFailedRequestOnly`. -/
def Config.LogFailedRequestOnly (c : Config) : Bool :=
  match c.ExcludeOpt with
  | none => IncludeLog
  | some e => e.SuccessRequest == ExcludeLog

/-! ## Body streams (`getRequestBody`, `getBodyBytes`)

An `io.ReadCloser` is embedded as the sequence of bytes it will deliver
plus an optional failure point: `errAt = some k` means the stream
delivers its first `k` bytes and then fails, `errAt = none` means the
whole content is delivered and the read succeeds.  Bytes are modelled as
`Char`s (the Go code only ever concatenates them and converts them to a
string). -/

structure BodyStream where
  content : List Char
  errAt : Option Nat
deriving DecidableEq

/-- `ioutil.ReadAll`: the bytes actually read, and whether an error was
returned. -/
def readAllStream (s : BodyStream) : List Char × Bool :=
  match s.errAt with
  | none => (s.content, false)
  | some k => (s.content.take k, true)

/-- `getBodyBytes`: reads the stream, replaces it (through the pointer)
by `ioutil.NopCloser(bytes.NewBuffer(read))` — a fresh error-free stream
over exactly the bytes that were read — and returns the read bytes along
with the error flag. -/
def getBodyBytes (s : BodyStream) : (List Char × Bool) × BodyStream :=
  let r := readAllStream s
  (r, { content := r.fst, errAt := none })

/-- `getRequestBody`: `"null"` for a `nil` body, `"null"` when the read
errors (the body has still been replaced by `getBodyBytes`), otherwise
the read bytes as a string.  The second component is the request body
after the call. -/
def getRequestBody : Option BodyStream → String × Option BodyStream
  | none => ("null", none)
  | some s =>
    let r := getBodyBytes s
    (if r.fst.snd then "null" else String.mk r.fst.fst, some r.snd)

/-! ## The response recorder

Modelled from the spec: `log.LoggingResponseWriter` lives in the
external module `github.com/muhammad-fakhri/log` and is not part of this
repository.  Per the specification (§4.3 Response Recorder) it wraps the
real response sink, forwards every write unchanged and accumulates: the
status code ("first explicit status wins; if never set, the committed
status is treated as OK for logging decisions") and the body bytes
("concatenated in write order").  We record the status as a field
initialised to 200 together with a `wroteHeader` flag so that only the
first explicit `WriteHeader` takes effect. -/

structure LoggingResponseWriter where
  Status : Nat
  wroteHeader : Bool
  Body : String
  headers : Header
deriving DecidableEq

/-- Modelled from the spec: the recorder created by
`logger.CreateResponseWrapper(w)` starts with no explicit status (treated
as 200 = OK), an empty body and no headers of its own. -/
def LoggingResponseWriter.init : LoggingResponseWriter :=
  { Status := 200, wroteHeader := false, Body := "", headers := ([] : List (String × List String)) }

/-- Modelled from the spec: `WriteHeader` records the first explicit
status code; later calls do not change the recorded status. -/
def LoggingResponseWriter.WriteHeader (w : LoggingResponseWriter) (code : Nat) :
    LoggingResponseWriter :=
  if w.wroteHeader then w else { w with Status := code, wroteHeader := true }

/-- Modelled from the spec: `Write` appends the written bytes to the
accumulated body (and forwards them to the real sink). -/
def LoggingResponseWriter.WriteString (w : LoggingResponseWriter) (s : String) :
    LoggingResponseWriter :=
  { w with Body := w.Body ++ s }

/-- Setting a header on the recorder (`writer.Header().Set(k, v)`). -/
def LoggingResponseWriter.SetHeader (w : LoggingResponseWriter) (key value : String) :
    LoggingResponseWriter :=
  { w with headers := Header.Set w.headers key value }

/-! ## Log records -/

/-- The values stored in the `map[string]interface{}` data map: strings,
integers (`int`/`int64`) and header maps. -/
inductive LogValue where
  | str : String → LogValue
  | int : Int → LogValue
  | header : Header → LogValue
deriving DecidableEq

/-- `LogRequest` from `log_ingress.go`. -/
structure LogRequest where
  URL : String
  Method : String
  Header : Header
  Body : String
deriving DecidableEq

/-- `IngressLog` carries the configuration (the logger collaborator is
external and carries no state the claims depend on). -/
structure IngressLog where
  config : Config
deriving DecidableEq

/-- The `RequestHeaderKeys` read in `IngressLog.log` via
`i.config.ExcludeOpt.RequestHeaderKeys`.  In Go this dereferences the
`ExcludeOpt` pointer; the `none` branch returns `[]` and is unreachable
from `log` because `LogRequestHeader` answers `false` when `ExcludeOpt`
is `nil`. -/
def Config.excludeRequestHeaderKeys (c : Config) : List String :=
  match c.ExcludeOpt with
  | some e => e.RequestHeaderKeys
  | none => []

/-- The `dataMap` constructed by `IngressLog.log` (the part of the
function after the skip guard).  The map is embedded as an association
list in insertion order; all keys are distinct constants, so lookup
agrees with the Go map. -/
def logDataMap (i : IngressLog) (request : LogRequest) (timeTaken : Int)
    (requestTimestampUnix : Int) (rw : LoggingResponseWriter) :
    List (String × LogValue) :=
  let dataMap : List (String × LogValue) :=
      [(FieldType, LogValue.str valueLogTypeIngress),
       (FieldURL, LogValue.str (request.Method ++ " " ++ request.URL)),
       (FieldReqTimestamp, LogValue.int requestTimestampUnix),
       (FieldStatus, LogValue.int (Int.ofNat rw.Status)),
       (FieldDurationMs, LogValue.int timeTaken)]
    let dataMap :=
      if Config.LogRequestHeader i.config then
        let header := Header.Del (Header.clone request.Header) "Authorization"
        let keys := Config.excludeRequestHeaderKeys i.config
        let header := if keys.length > 0 then keys.foldl Header.Del header else header
        dataMap ++ [(FieldReqHeader, LogValue.header header)]
      else dataMap
    let dataMap :=
      if Config.LogRequestBody i.config then
        dataMap ++ [(FieldReqBody, LogValue.str request.Body)]
      else dataMap
    let dataMap :=
      if Config.LogResponseHeader i.config then
        dataMap ++
          [(FieldResponseHeader, LogValue.header (Header.Del (Header.clone rw.headers) "Authorization"))]
      else dataMap
    let dataMap :=
      if Config.LogResponseBody i.config then
        if Config.LogSuccessResponseBody i.config then
          dataMap ++ [(FieldResponseBody, LogValue.str rw.Body)]
        else
          if rw.Status != 200 then
            dataMap ++ [(FieldResponseBody, LogValue.str rw.Body)]
          else
            dataMap ++ [(FieldResponseBody, LogValue.str wipedMessage)]
      else dataMap
    dataMap

/-- `IngressLog.log`: returns `none` when the record is skipped
(`DisableIngressLog`, or failed-request-only policy with a 200 status)
and `some dataMap` when one record is emitted through
`logger.InfoMap`. -/
def IngressLog.log (i : IngressLog) (request : LogRequest) (timeTaken : Int)
    (requestTimestampUnix : Int) (rw : LoggingResponseWriter) :
    Option (List (String × LogValue)) :=
  if i.config.DisableIngressLog || (Config.LogFailedRequestOnly i.config && rw.Status == 200) then
    none
  else
    some (logDataMap i request timeTaken requestTimestampUnix rw)

/-! ## The wrapped handler (`Enforce` / `EnforceWithParams`)

The wrapped handler's interaction with the response writer is embedded
as the sequence of writer operations it performs before returning or
panicking.  `Enforce` and `EnforceWithParams` differ only in the extra
router-params argument threaded through to the handler; both build the
same deferred block, so a single model covers both. -/

inductive WriteOp where
  | setHeader : String → String → WriteOp
  | writeHeader : Nat → WriteOp
  | write : String → WriteOp
deriving DecidableEq

def applyOp (w : LoggingResponseWriter) : WriteOp → LoggingResponseWriter
  | WriteOp.setHeader k v => w.SetHeader k v
  | WriteOp.writeHeader code => w.WriteHeader code
  | WriteOp.write s => w.WriteString s

/-- What the wrapped handler does on the given request: the writer
operations it performs, whether it then panics (`panicVal = some v`
with `v` the `fmt` rendering of the panic value) instead of returning,
and how many milliseconds its execution takes. -/
structure HandlerBehavior where
  ops : List WriteOp
  panicVal : Option String
  elapsedMs : Int
deriving DecidableEq

structure EnforceResult where
  writer : LoggingResponseWriter
  records : List (List (String × LogValue))
  propagatedPanic : Option String
deriving DecidableEq

/-- One invocation of the handler produced by `IngressLog.Enforce` (or
`EnforceWithParams`), after the request has been snapshotted into
`request` and the recorder installed.  The deferred block always runs:
on panic it calls `recover()` (so no panic propagates), prints a trace to
the operator channel, then unconditionally calls `WriteHeader(500)` and
`Write("panic: <v>.")` on the recorder; it then calls `i.log` exactly
once.  `elapsedTimeInMS` is assigned by the statement after
`next.ServeHTTP`, which on panic is never reached, so the deferred block
then reads the zero value `0` through the pointer. -/
def IngressLog.runEnforce (i : IngressLog) (request : LogRequest) (startUnix : Int)
    (h : HandlerBehavior) : EnforceResult :=
  let w1 := h.ops.foldl applyOp LoggingResponseWriter.init
  let elapsedTimeInMS : Int :=
    match h.panicVal with
    | none => h.elapsedMs
    | some _ => 0
  let w2 :=
    match h.panicVal with
    | none => w1
    | some v => (w1.WriteHeader 500).WriteString ("panic: " ++ v ++ ".")
  { writer := w2
    records := (i.log request elapsedTimeInMS startUnix w2).toList
    propagatedPanic := none }

/-! ## Correlation identifier (`appendContextDataAndSetValue`) -/

/-- Modelled from the spec: the value the external `log` module stores
on the request context under its well-known key
(`log.ContextDataMapKey`): the correlation identifier plus a
field-mapping placeholder. -/
structure ContextData where
  contextId : String
  dataMap : List (String × String)
deriving DecidableEq

/-- The inbound `*http.Request`, reduced to the parts the middleware
touches: the context value under the well-known key, the header map, the
URL/method, and the body stream. -/
structure RequestM where
  ctxValue : Option ContextData
  header : Header
  URL : String
  Method : String
  body : Option BodyStream
deriving DecidableEq

/-- Modelled from the spec: `log.Logger.SetContextDataAndSetValue`
attaches the correlation identifier and an (initially empty)
field-mapping placeholder onto the request's propagated context under
the well-known key. -/
def SetContextDataAndSetValue (r : RequestM) (dataMap : Option (List (String × String)))
    (contextID : String) : RequestM :=
  { r with ctxValue := some { contextId := contextID, dataMap := dataMap.getD [] } }

/-- `IngressLog.appendContextDataAndSetValue`.  `uuid.New().String()` is
nondeterministic, so the freshly generated identifier is a parameter. -/
def IngressLog.appendContextDataAndSetValue (r : RequestM) (freshUuid : String) : RequestM :=
  match r.ctxValue with
  | some _ => r
  | none =>
    let fromHeader := Header.Get r.header headerNameRequestID
    let contextID := if fromHeader == "" then freshUuid else fromHeader
    SetContextDataAndSetValue r none contextID

/-- `buildLogRequest`: snapshots URL, method, headers and body; the body
capture replaces the request's body stream. -/
def buildLogRequest (r : RequestM) : LogRequest × RequestM :=
  let b := getRequestBody r.body
  ({ URL := r.URL, Method := r.Method, Header := r.header, Body := b.fst },
   { r with body := b.snd })

/-! ## Pointer-level model of `NewConfig` / `NewIngressLogMiddleware`

To state the aliasing/mutation behaviour of `NewConfig` we model Go
pointers explicitly: an address is a `Nat` and the heap maps addresses
to `Config` values. -/

/-- `NewConfig` at the pointer level: reads `*c`, installs a fresh empty
`ExcludeOption` into the pointed-to `Config` when its `ExcludeOpt` is
`nil`, and returns the same pointer. -/
def NewConfigHeap (p : Nat) (heap : Nat → Config) : Nat × (Nat → Config) :=
  match (heap p).ExcludeOpt with
  | none => (p, fun q => if q = p then { heap p with ExcludeOpt := some ExcludeOption.zero } else heap q)
  | some _ => (p, heap)

/-- The middleware object at the pointer level: it stores the `*Config`
pointer. -/
structure IngressLogRef where
  config : Nat
deriving DecidableEq

/-- `NewIngressLogMiddleware` at the pointer level.  The variadic
`optionalConfig ...*Config` becomes a list of possibly-nil pointers;
`freshAddr` is the address used when `defaultConfig()` allocates a new
`Config`. -/
def NewIngressLogMiddlewareHeap (optionalConfig : List (Option Nat)) (heap : Nat → Config)
    (freshAddr : Nat) : IngressLogRef × (Nat → Config) :=
  match optionalConfig with
  | [] => ({ config := freshAddr }, fun q => if q = freshAddr then defaultConfig else heap q)
  | none :: _ => ({ config := freshAddr }, fun q => if q = freshAddr then defaultConfig else heap q)
  | some p :: _ =>
    let r := NewConfigHeap p heap
    ({ config := r.fst }, r.snd)

/-! ## Helper lemmas -/

/-- Membership after `Header.Del`: the entry was already there and its
key is not the canonicalised deleted key. -/
theorem mem_of_mem_Del {h : Header} {key : String} {p : String × List String}
    (hp : p ∈ Header.Del h key) : p ∈ h ∧ p.fst ≠ canonicalMIMEHeaderKey key := by
  unfold Header.Del at hp
  have h2 := List.mem_filter.mp hp
  refine ⟨h2.1, ?_⟩
  simpa using h2.2

/-- Membership after folding `Header.Del` over a list of keys. -/
theorem mem_of_mem_foldl_Del {keys : List String} {h : Header} {p : String × List String}
    (hp : p ∈ keys.foldl Header.Del h) :
    p ∈ h ∧ ∀ k ∈ keys, p.fst ≠ canonicalMIMEHeaderKey k := by
  induction keys generalizing h with
  | nil => exact ⟨hp, by simp⟩
  | cons k ks ih =>
    rw [List.foldl_cons] at hp
    obtain ⟨h1, h2⟩ := ih hp
    obtain ⟨h3, h4⟩ := mem_of_mem_Del h1
    refine ⟨h3, ?_⟩
    intro k2 hk2
    rcases List.mem_cons.mp hk2 with hk2 | hk2
    · exact hk2 ▸ h4
    · exact h2 k2 hk2

/-- The number of records `IngressLog.log` emits: `0` when skipped,
otherwise `1`. -/
theorem log_toList_length (i : IngressLog) (request : LogRequest) (tt ts : Int)
    (rw : LoggingResponseWriter) :
    (i.log request tt ts rw).toList.length =
      if i.config.DisableIngressLog = true ∨
          (Config.LogFailedRequestOnly i.config = true ∧ rw.Status = 200) then 0 else 1 := by
  unfold IngressLog.log
  cases hd : i.config.DisableIngressLog with
  | true => simp [hd]
  | false =>
    cases hf : Config.LogFailedRequestOnly i.config with
    | false => simp [hd, hf]
    | true =>
      by_cases hs : rw.Status = 200
      · simp [hd, hf, hs]
      · simp [hd, hf, hs]

/-- Tactic-free characterisation used by several claims: `duration_ms`
always holds the `timeTaken` argument. -/
theorem logDataMap_durationMs (i : IngressLog) (request : LogRequest) (tt ts : Int)
    (rw : LoggingResponseWriter) :
    (logDataMap i request tt ts rw).lookup FieldDurationMs = some (LogValue.int tt) := by
  unfold logDataMap
  cases h1 : Config.LogRequestHeader i.config <;>
  cases h2 : Config.LogRequestBody i.config <;>
  cases h3 : Config.LogResponseHeader i.config <;>
  cases h4 : Config.LogResponseBody i.config <;>
  cases h5 : Config.LogSuccessResponseBody i.config <;>
  by_cases h6 : rw.Status = 200 <;>
  simp [h1, h2, h3, h4, h5, h6] <;>
  rfl

/-! ## Claim C1 -/

/-- Claim C1: for every request handled by the wrapped handler, exactly
one log record is emitted, unless the configuration's
`DisableIngressLog` flag is true, or `LogFailedRequestOnly()` holds and
the recorded status equals 200 — in which case zero records are
emitted. -/
theorem enforce_log_record_count (i : IngressLog) (request : LogRequest) (startUnix : Int)
    (h : HandlerBehavior) :
    (i.runEnforce request startUnix h).records.length =
      if i.config.DisableIngressLog = true ∨
          (Config.LogFailedRequestOnly i.config = true ∧
            (i.runEnforce request startUnix h).writer.Status = 200) then 0 else 1 := by
  simp only [IngressLog.runEnforce]
  exact log_toList_length i request _ startUnix _

/-- The `rsp_body` field of the constructed data map, by the three-way
rule of the source. -/
theorem logDataMap_responseBody (i : IngressLog) (request : LogRequest) (tt ts : Int)
    (rw : LoggingResponseWriter) :
    (logDataMap i request tt ts rw).lookup FieldResponseBody =
      if Config.LogResponseBody i.config = false then none
      else if Config.LogSuccessResponseBody i.config = true then some (LogValue.str rw.Body)
      else if rw.Status ≠ 200 then some (LogValue.str rw.Body)
      else some (LogValue.str wipedMessage) := by
  unfold logDataMap
  cases h1 : Config.LogRequestHeader i.config <;>
  cases h2 : Config.LogRequestBody i.config <;>
  cases h3 : Config.LogResponseHeader i.config <;>
  cases h4 : Config.LogResponseBody i.config <;>
  cases h5 : Config.LogSuccessResponseBody i.config <;>
  by_cases h6 : rw.Status = 200 <;>
  simp [h1, h2, h3, h4, h5, h6] <;>
  first
  | rfl
  | decide

/-- An emitted record is the constructed data map. -/
theorem log_eq_some (i : IngressLog) (request : LogRequest) (tt ts : Int)
    (rw : LoggingResponseWriter) (rec : List (String × LogValue))
    (hrec : i.log request tt ts rw = some rec) :
    rec = logDataMap i request tt ts rw := by
  unfold IngressLog.log at hrec
  split at hrec
  · exact Option.noConfusion hrec
  · injection hrec with hrec
    exact hrec.symm

/-! ## Claim C3 -/

/-- Claim C3: for every emitted log record, a three-way rule decides the
`rsp_body` value: if `LogResponseBody()` is false the field is omitted;
else if `LogSuccessResponseBody()` is true the recorded body is included
verbatim regardless of status; else the recorded body is included
verbatim exactly when the status is not 200, and the fixed marker `"-"`
is substituted when the status is 200. -/
theorem log_response_body_policy (i : IngressLog) (request : LogRequest) (tt ts : Int)
    (rw : LoggingResponseWriter) (rec : List (String × LogValue))
    (hrec : i.log request tt ts rw = some rec) :
    rec.lookup FieldResponseBody =
      if Config.LogResponseBody i.config = false then none
      else if Config.LogSuccessResponseBody i.config = true then some (LogValue.str rw.Body)
      else if rw.Status ≠ 200 then some (LogValue.str rw.Body)
      else some (LogValue.str wipedMessage) := by
  rw [log_eq_some i request tt ts rw rec hrec]
  exact logDataMap_responseBody i request tt ts rw

def c3i : IngressLog :=
  { config :=
    { ExcludeOpt := some { ExcludeOption.zero with SuccessResponseBody := true }
      DisableIngressLog := false
      FieldOpt := none } }

def c3req : LogRequest :=
  { URL := "/hello", Method := "GET", Header := [("X-Country", ["ID"])], Body := "b" }

def c3rw : LoggingResponseWriter :=
  { Status := 200, wroteHeader := true, Body := "secret", headers := [] }

def c3rec : List (String × LogValue) := (IngressLog.log c3i c3req 5 7 c3rw).getD []

/-- Witness for claim C3: with `LogResponseBody = true` and
`LogSuccessResponseBody = false`, a 200 response logs the marker `"-"`
in `rsp_body`. -/
theorem log_response_body_policy_witness :
    IngressLog.log c3i c3req 5 7 c3rw = some c3rec ∧
    c3rec.lookup FieldResponseBody = some (LogValue.str "-") ∧
    c3rec.lookup FieldResponseBody =
      (if Config.LogResponseBody c3i.config = false then none
       else if Config.LogSuccessResponseBody c3i.config = true then some (LogValue.str c3rw.Body)
       else if c3rw.Status ≠ 200 then some (LogValue.str c3rw.Body)
       else some (LogValue.str wipedMessage)) :=
  ⟨rfl, by decide, log_response_body_policy c3i c3req 5 7 c3rw c3rec rfl⟩

/-! ## Claim C2 -/

def c2i : IngressLog := { config := defaultConfig }

def c2req : LogRequest := { URL := "/p", Method := "GET", Header := [], Body := "null" }

def c2h : HandlerBehavior :=
  { ops := [WriteOp.writeHeader 200, WriteOp.write "ok"], panicVal := some "boom", elapsedMs := 3 }

/-- Claim C2 (counterexample): a handler that commits a 200 response
with body "ok" and then panics.  The claim says the fallback (status
500, panic body) is written to the recorder only if no response was
already committed — so here the recorded body would stay "ok".  In the
code the deferred block writes unconditionally: the recorded body
becomes "okpanic: boom." (and the recorded status stays 200, not
500). -/
theorem panic_write_after_commit_counterexample :
    c2h.panicVal = some "boom" ∧
    (IngressLog.runEnforce c2i c2req 7 c2h).writer.Body = "okpanic: boom." ∧
    ¬ (IngressLog.runEnforce c2i c2req 7 c2h).writer.Body = "ok" ∧
    ¬ (IngressLog.runEnforce c2i c2req 7 c2h).writer.Status = 500 := by decide

/-- Claim C2 (amended): on a handler panic the interceptor recovers (no
panic propagates), unconditionally invokes `WriteHeader(500)` and a body
write of `"panic: <v>."` on the recorder — so the panic text is appended
to the recorded body even when a response was already committed, the
recorded status becomes 500 exactly when no status had been explicitly
written, and the recorded body contains the substring "panic"; one log
record is then emitted unless the skip policy applies. -/
theorem enforce_panic_handling (i : IngressLog) (request : LogRequest) (startUnix : Int)
    (h : HandlerBehavior) (v : String) (hp : h.panicVal = some v) :
    (i.runEnforce request startUnix h).propagatedPanic = none ∧
    (i.runEnforce request startUnix h).writer.Body =
      (h.ops.foldl applyOp LoggingResponseWriter.init).Body ++ ("panic: " ++ v ++ ".") ∧
    (∃ a b, (i.runEnforce request startUnix h).writer.Body = a ++ "panic" ++ b) ∧
    ((h.ops.foldl applyOp LoggingResponseWriter.init).wroteHeader = false →
      (i.runEnforce request startUnix h).writer.Status = 500) ∧
    ((h.ops.foldl applyOp LoggingResponseWriter.init).wroteHeader = true →
      (i.runEnforce request startUnix h).writer.Status =
        (h.ops.foldl applyOp LoggingResponseWriter.init).Status) ∧
    (i.runEnforce request startUnix h).records.length =
      if i.config.DisableIngressLog = true ∨
          (Config.LogFailedRequestOnly i.config = true ∧
            (i.runEnforce request startUnix h).writer.Status = 200) then 0 else 1 := by
  refine ⟨?_, ?_, ?_, ?_, ?_, ?_⟩
  · simp [IngressLog.runEnforce]
  · simp only [IngressLog.runEnforce, hp]
    by_cases hw : (h.ops.foldl applyOp LoggingResponseWriter.init).wroteHeader <;>
      simp [LoggingResponseWriter.WriteHeader, LoggingResponseWriter.WriteString, hw]
  · refine ⟨(h.ops.foldl applyOp LoggingResponseWriter.init).Body, ": " ++ v ++ ".", ?_⟩
    simp only [IngressLog.runEnforce, hp]
    have hsplit : ("panic: " : String) = "panic" ++ ": " := rfl
    by_cases hw : (h.ops.foldl applyOp LoggingResponseWriter.init).wroteHeader <;>
      simp [LoggingResponseWriter.WriteHeader, LoggingResponseWriter.WriteString, hw,
        String.append_assoc] <;>
      rw [hsplit, String.append_assoc]
  · intro hw
    simp [IngressLog.runEnforce, hp, LoggingResponseWriter.WriteHeader,
      LoggingResponseWriter.WriteString, hw]
  · intro hw
    simp [IngressLog.runEnforce, hp, LoggingResponseWriter.WriteHeader,
      LoggingResponseWriter.WriteString, hw]
  · simp only [IngressLog.runEnforce, hp]
    exact log_toList_length i request 0 startUnix _

def c2wh : HandlerBehavior := { ops := [], panicVal := some "pv", elapsedMs := 2 }

/-- Witness for the amended claim C2 at a concrete panicking handler. -/
theorem enforce_panic_handling_witness :
    c2wh.panicVal = some "pv" ∧
    (IngressLog.runEnforce c2i c2req 7 c2wh).propagatedPanic = none :=
  ⟨rfl, (enforce_panic_handling c2i c2req 7 c2wh "pv" rfl).1⟩

/-! ## Claim C8 -/

/-- For every emitted record, `duration_ms` holds the `timeTaken`
argument that `log` received. -/
theorem log_durationMs (i : IngressLog) (request : LogRequest) (tt ts : Int)
    (rw : LoggingResponseWriter) (rec : List (String × LogValue))
    (hrec : i.log request tt ts rw = some rec) :
    rec.lookup FieldDurationMs = some (LogValue.int tt) := by
  rw [log_eq_some i request tt ts rw rec hrec]
  exact logDataMap_durationMs i request tt ts rw

def c8i : IngressLog := { config := defaultConfig }

def c8req : LogRequest := { URL := "/p", Method := "GET", Header := [], Body := "null" }

def c8h : HandlerBehavior := { ops := [], panicVal := some "boom", elapsedMs := 1500 }

/-- Claim C8 (counterexample): a handler that runs 1500 ms and then
panics.  The assignment `elapsedTimeInMS = time.Since(startTime)` after
`next.ServeHTTP` is never reached on panic, so the deferred block reads
the zero value through the pointer: the emitted record's `duration_ms`
is 0, not the elapsed 1500. -/
theorem panic_duration_zero_counterexample :
    c8h.panicVal = some "boom" ∧
    c8h.elapsedMs = 1500 ∧
    (IngressLog.runEnforce c8i c8req 7 c8h).records.map (List.lookup FieldDurationMs) =
      [some (LogValue.int 0)] ∧
    ¬ (IngressLog.runEnforce c8i c8req 7 c8h).records.map (List.lookup FieldDurationMs) =
      [some (LogValue.int c8h.elapsedMs)] := by decide

/-- Claim C8 (amended): the logged `duration_ms` equals the handler's
elapsed milliseconds when it returns normally, and equals 0 when it
panics (the elapsed-time assignment after the handler call is never
executed on the panic path). -/
theorem enforce_duration_recorded (i : IngressLog) (request : LogRequest) (startUnix : Int)
    (h : HandlerBehavior) (rec : List (String × LogValue))
    (hrec : rec ∈ (i.runEnforce request startUnix h).records) :
    rec.lookup FieldDurationMs =
      some (LogValue.int (if h.panicVal = none then h.elapsedMs else 0)) := by
  simp only [IngressLog.runEnforce] at hrec
  rw [Option.mem_toList, Option.mem_def] at hrec
  have hd := log_durationMs _ _ _ _ _ _ hrec
  cases hp : h.panicVal with
  | none => simpa [hp] using hd
  | some v => simpa [hp] using hd

def c8wh : HandlerBehavior := { ops := [], panicVal := none, elapsedMs := 1500 }

def c8wrec : List (String × LogValue) :=
  ((IngressLog.runEnforce c8i c8req 7 c8wh).records).headD []

/-- Witness for the amended claim C8: a handler that returns normally
after 1500 ms gets `duration_ms = 1500` (which is ≥ 1000). -/
theorem enforce_duration_recorded_witness :
    c8wrec ∈ (IngressLog.runEnforce c8i c8req 7 c8wh).records ∧
    c8wrec.lookup FieldDurationMs =
      some (LogValue.int (if c8wh.panicVal = none then c8wh.elapsedMs else 0)) ∧
    c8wrec.lookup FieldDurationMs = some (LogValue.int 1500) ∧
    (1000 : Int) ≤ 1500 :=
  ⟨by decide, enforce_duration_recorded c8i c8req 7 c8wh c8wrec (by decide), by decide, by decide⟩

/-! ## Claim C4 -/

/-- The request-header value built inside `IngressLog.log` when
`LogRequestHeader()` holds: clone, delete `Authorization`, then delete
every configured exclusion key. -/
def loggedRequestHeader (i : IngressLog) (request : LogRequest) : Header :=
  let header := Header.Del (Header.clone request.Header) "Authorization"
  let keys := Config.excludeRequestHeaderKeys i.config
  if keys.length > 0 then keys.foldl Header.Del header else header

/-- The response-header value built inside `IngressLog.log` when
`LogResponseHeader()` holds: clone, delete `Authorization`. -/
def loggedResponseHeader (rw : LoggingResponseWriter) : Header :=
  Header.Del (Header.clone rw.headers) "Authorization"

theorem logDataMap_reqHeader (i : IngressLog) (request : LogRequest) (tt ts : Int)
    (rw : LoggingResponseWriter) :
    (logDataMap i request tt ts rw).lookup FieldReqHeader =
      if Config.LogRequestHeader i.config = true
      then some (LogValue.header (loggedRequestHeader i request)) else none := by
  unfold logDataMap loggedRequestHeader
  cases h1 : Config.LogRequestHeader i.config <;>
  cases h2 : Config.LogRequestBody i.config <;>
  cases h3 : Config.LogResponseHeader i.config <;>
  cases h4 : Config.LogResponseBody i.config <;>
  cases h5 : Config.LogSuccessResponseBody i.config <;>
  by_cases h6 : rw.Status = 200 <;>
  simp [h1, h2, h3, h4, h5, h6] <;>
  first
  | rfl
  | decide

theorem logDataMap_rspHeader (i : IngressLog) (request : LogRequest) (tt ts : Int)
    (rw : LoggingResponseWriter) :
    (logDataMap i request tt ts rw).lookup FieldResponseHeader =
      if Config.LogResponseHeader i.config = true
      then some (LogValue.header (loggedResponseHeader rw)) else none := by
  unfold logDataMap loggedResponseHeader
  cases h1 : Config.LogRequestHeader i.config <;>
  cases h2 : Config.LogRequestBody i.config <;>
  cases h3 : Config.LogResponseHeader i.config <;>
  cases h4 : Config.LogResponseBody i.config <;>
  cases h5 : Config.LogSuccessResponseBody i.config <;>
  by_cases h6 : rw.Status = 200 <;>
  simp [h1, h2, h3, h4, h5, h6] <;>
  first
  | rfl
  | decide

theorem canonical_authorization :
    canonicalMIMEHeaderKey "Authorization" = "Authorization" := by decide

/-- Every entry surviving the request-header redaction was an original
entry, does not have key `Authorization`, and does not have the
canonical form of any configured exclusion key. -/
theorem mem_loggedRequestHeader {i : IngressLog} {request : LogRequest}
    {p : String × List String} (hp : p ∈ loggedRequestHeader i request) :
    p ∈ request.Header ∧ p.fst ≠ "Authorization" ∧
      ∀ k ∈ Config.excludeRequestHeaderKeys i.config,
        p.fst ≠ canonicalMIMEHeaderKey k := by
  unfold loggedRequestHeader at hp
  by_cases hk : (Config.excludeRequestHeaderKeys i.config).length > 0
  · rw [if_pos hk] at hp
    obtain ⟨h1, h2⟩ := mem_of_mem_foldl_Del hp
    obtain ⟨h3, h4⟩ := mem_of_mem_Del h1
    exact ⟨h3, by simpa [canonical_authorization] using h4, h2⟩
  · rw [if_neg hk] at hp
    obtain ⟨h3, h4⟩ := mem_of_mem_Del hp
    have hnil : Config.excludeRequestHeaderKeys i.config = [] := by
      have := Nat.eq_zero_of_not_pos hk
      exact List.length_eq_zero.mp this
    exact ⟨h3, by simpa [canonical_authorization] using h4, by simp [hnil]⟩

/-- Claim C4: for every emitted log record and every configuration, the
`Authorization` header is absent from the logged request-header mapping
and from the logged response-header mapping, and every header name in
the configured `RequestHeaderKeys` exclusion list is absent from the
logged request-header mapping (the request headers of an HTTP request
carry canonical MIME keys, which is the stated hypothesis). -/
theorem logged_headers_redaction (i : IngressLog) (request : LogRequest) (tt ts : Int)
    (rw : LoggingResponseWriter) (rec : List (String × LogValue))
    (hreqc : ∀ p ∈ request.Header, canonicalMIMEHeaderKey p.fst = p.fst)
    (hrec : i.log request tt ts rw = some rec) :
    (∀ hm, rec.lookup FieldReqHeader = some (LogValue.header hm) →
      ∀ p ∈ hm, p.fst ≠ "Authorization" ∧
        ∀ k ∈ Config.excludeRequestHeaderKeys i.config, p.fst ≠ k) ∧
    (∀ hm, rec.lookup FieldResponseHeader = some (LogValue.header hm) →
      ∀ p ∈ hm, p.fst ≠ "Authorization") := by
  rw [log_eq_some i request tt ts rw rec hrec]
  constructor
  · intro hm hlook p hp
    rw [logDataMap_reqHeader] at hlook
    by_cases hlrh : Config.LogRequestHeader i.config = true
    · rw [if_pos hlrh] at hlook
      injection hlook with hlook
      injection hlook with hlook
      subst hlook
      obtain ⟨hmem, hauth, hkeys⟩ := mem_loggedRequestHeader hp
      refine ⟨hauth, ?_⟩
      intro k hk heq
      apply hkeys k hk
      have h5 : canonicalMIMEHeaderKey k = k := by
        rw [← heq]
        exact hreqc p hmem
      rw [h5]
      exact heq
    · rw [if_neg hlrh] at hlook
      exact Option.noConfusion hlook
  · intro hm hlook p hp
    rw [logDataMap_rspHeader] at hlook
    by_cases hlrh : Config.LogResponseHeader i.config = true
    · rw [if_pos hlrh] at hlook
      injection hlook with hlook
      injection hlook with hlook
      subst hlook
      obtain ⟨_, h4⟩ := mem_of_mem_Del hp
      simpa [canonical_authorization] using h4
    · rw [if_neg hlrh] at hlook
      exact Option.noConfusion hlook

def c4i : IngressLog :=
  { config :=
    { ExcludeOpt := some { ExcludeOption.zero with RequestHeaderKeys := ["X-Exclude-Key"] }
      DisableIngressLog := false
      FieldOpt := none } }

def c4req : LogRequest :=
  { URL := "/hello", Method := "GET"
    Header := [("Authorization", ["Bearer x"]), ("X-Country", ["ID"]), ("X-Exclude-Key", ["v"])]
    Body := "b" }

def c4rw : LoggingResponseWriter :=
  { Status := 200, wroteHeader := true, Body := "ok"
    headers := [("Authorization", ["secret"]), ("Content-Type", ["application/json"])] }

def c4rec : List (String × LogValue) := (IngressLog.log c4i c4req 5 7 c4rw).getD []

/-- Witness for claim C4: a request carrying `Authorization`,
`X-Country` and the excluded `X-Exclude-Key` logs only `X-Country`; the
logged response headers drop `Authorization`. -/
theorem logged_headers_redaction_witness :
    (∀ p ∈ c4req.Header, canonicalMIMEHeaderKey p.fst = p.fst) ∧
    IngressLog.log c4i c4req 5 7 c4rw = some c4rec ∧
    c4rec.lookup FieldReqHeader = some (LogValue.header [("X-Country", ["ID"])]) ∧
    c4rec.lookup FieldResponseHeader =
      some (LogValue.header [("Content-Type", ["application/json"])]) ∧
    ((∀ hm, c4rec.lookup FieldReqHeader = some (LogValue.header hm) →
      ∀ p ∈ hm, p.fst ≠ "Authorization" ∧
        ∀ k ∈ Config.excludeRequestHeaderKeys c4i.config, p.fst ≠ k) ∧
    (∀ hm, c4rec.lookup FieldResponseHeader = some (LogValue.header hm) →
      ∀ p ∈ hm, p.fst ≠ "Authorization")) :=
  ⟨by decide, rfl, by decide, by decide,
    logged_headers_redaction c4i c4req 5 7 c4rw c4rec (by decide) rfl⟩

/-! ## Claim C5 -/

/-- Claim C5: the body-capture step reads the stream to completion,
returns the collected bytes as the snapshot and restores a fresh stream
over the same bytes (so a later reader observes byte-for-byte the
original content); a nil body yields the marker "null", and a read
failure yields the marker "null" instead of an error. -/
theorem getRequestBody_capture (s : BodyStream) :
    getRequestBody none = ("null", none) ∧
    (s.errAt = none →
      (getRequestBody (some s)).fst = String.mk s.content ∧
      (getRequestBody (some s)).snd = some { content := s.content, errAt := none } ∧
      readAllStream { content := s.content, errAt := none } = (s.content, false)) ∧
    (∀ k, s.errAt = some k → (getRequestBody (some s)).fst = "null") := by
  refine ⟨rfl, ?_, ?_⟩
  · intro he
    refine ⟨?_, ?_, ?_⟩ <;> simp [getRequestBody, getBodyBytes, readAllStream, he]
  · intro k hk
    simp [getRequestBody, getBodyBytes, readAllStream, hk]

def c5s : BodyStream := { content := ['a', 'b'], errAt := none }

/-- Witness for claim C5 on a concrete two-byte error-free stream. -/
theorem getRequestBody_capture_witness :
    c5s.errAt = none ∧
    ((getRequestBody (some c5s)).fst = String.mk c5s.content ∧
     (getRequestBody (some c5s)).snd = some { content := c5s.content, errAt := none } ∧
     readAllStream { content := c5s.content, errAt := none } = (c5s.content, false)) ∧
    (getRequestBody (some c5s)).fst = "ab" :=
  ⟨rfl, (getRequestBody_capture c5s).2.1 rfl, by decide⟩

/-! ## Claim C10 -/

/-- Claim C10: when reading the body fails after `k` of its bytes, the
stream restored onto the request holds exactly those `k` bytes (a
truncation of the original content), while the log snapshot records the
body as "null". -/
theorem truncated_restore_on_read_error (s : BodyStream) (k : Nat) (he : s.errAt = some k)
    (hk : k < s.content.length) :
    (getRequestBody (some s)).fst = "null" ∧
    (getRequestBody (some s)).snd = some { content := s.content.take k, errAt := none } ∧
    s.content.take k ≠ s.content := by
  refine ⟨?_, ?_, ?_⟩
  · simp [getRequestBody, getBodyBytes, readAllStream, he]
  · simp [getRequestBody, getBodyBytes, readAllStream, he]
  · intro hcontra
    have hlen := congrArg List.length hcontra
    rw [List.length_take, Nat.min_eq_left (Nat.le_of_lt hk)] at hlen
    omega

def c10s : BodyStream := { content := ['a', 'b', 'c'], errAt := some 1 }

/-- Witness for claim C10: a three-byte stream failing after one byte
restores only that byte and logs "null". -/
theorem truncated_restore_on_read_error_witness :
    c10s.errAt = some 1 ∧
    1 < c10s.content.length ∧
    ((getRequestBody (some c10s)).fst = "null" ∧
     (getRequestBody (some c10s)).snd = some { content := c10s.content.take 1, errAt := none } ∧
     c10s.content.take 1 ≠ c10s.content) ∧
    (getRequestBody (some c10s)).snd = some { content := ['a'], errAt := none } :=
  ⟨rfl, by decide, truncated_restore_on_read_error c10s 1 rfl (by decide), by decide⟩

/-! ## Claim C6 -/

def cfgExcludeNil : Config :=
  { ExcludeOpt := none, DisableIngressLog := false, FieldOpt := none }

def cfgExcludeZero : Config :=
  { ExcludeOpt := some ExcludeOption.zero, DisableIngressLog := false, FieldOpt := none }

/-- Claim C6 (code evaluated at the failing input): a `Config` whose
`ExcludeOpt` is nil does NOT answer the policy questions like one whose
`ExcludeOpt` is present with every flag unset.  The nil branch of each
getter returns the constant `IncludeLog`, whose value is `false`, so
five of the six questions answer "do not log" instead of "log"; only
`LogFailedRequestOnly` coincides. -/
theorem nil_exclude_block_differs_from_empty :
    Config.LogRequestHeader cfgExcludeNil = false ∧
      Config.LogRequestHeader cfgExcludeZero = true ∧
    Config.LogRequestBody cfgExcludeNil = false ∧
      Config.LogRequestBody cfgExcludeZero = true ∧
    Config.LogResponseHeader cfgExcludeNil = false ∧
      Config.LogResponseHeader cfgExcludeZero = true ∧
    Config.LogResponseBody cfgExcludeNil = false ∧
      Config.LogResponseBody cfgExcludeZero = true ∧
    Config.LogSuccessResponseBody cfgExcludeNil = false ∧
      Config.LogSuccessResponseBody cfgExcludeZero = true ∧
    Config.LogFailedRequestOnly cfgExcludeNil = false ∧
      Config.LogFailedRequestOnly cfgExcludeZero = false := by decide

/-! ## Claim C7 -/

/-- Claim C7: if the request's context already carries the well-known
correlation value the interceptor returns the request unchanged;
otherwise the identifier is the `x-request-id` header when non-empty,
else the freshly generated UUID, and it is attached to the request's
context. -/
theorem appendContextData_correlation (r : RequestM) (freshUuid : String) :
    (∀ d, r.ctxValue = some d → IngressLog.appendContextDataAndSetValue r freshUuid = r) ∧
    (r.ctxValue = none → Header.Get r.header headerNameRequestID ≠ "" →
      (IngressLog.appendContextDataAndSetValue r freshUuid).ctxValue =
        some { contextId := Header.Get r.header headerNameRequestID, dataMap := [] }) ∧
    (r.ctxValue = none → Header.Get r.header headerNameRequestID = "" →
      (IngressLog.appendContextDataAndSetValue r freshUuid).ctxValue =
        some { contextId := freshUuid, dataMap := [] }) := by
  refine ⟨?_, ?_, ?_⟩
  · intro d hd
    simp [IngressLog.appendContextDataAndSetValue, hd]
  · intro hnone hne
    simp [IngressLog.appendContextDataAndSetValue, SetContextDataAndSetValue, hnone, hne]
  · intro hnone hemp
    simp [IngressLog.appendContextDataAndSetValue, SetContextDataAndSetValue, hnone, hemp]

def c7r1 : RequestM :=
  { ctxValue := some { contextId := "upstream", dataMap := [] }
    header := [("X-Request-Id", ["abc"])], URL := "/", Method := "GET", body := none }

def c7r2 : RequestM :=
  { ctxValue := none, header := [("X-Request-Id", ["abc"])]
    URL := "/", Method := "GET", body := none }

def c7r3 : RequestM :=
  { ctxValue := none, header := [], URL := "/", Method := "GET", body := none }

/-- Witness for claim C7 at three concrete requests: an upstream value
is preserved, a header id is used, and otherwise the fresh UUID is
attached. -/
theorem appendContextData_correlation_witness :
    IngressLog.appendContextDataAndSetValue c7r1 "u" = c7r1 ∧
    (Header.Get c7r2.header headerNameRequestID = "abc" ∧
      (IngressLog.appendContextDataAndSetValue c7r2 "u").ctxValue =
        some { contextId := "abc", dataMap := [] }) ∧
    (IngressLog.appendContextDataAndSetValue c7r3 "u").ctxValue =
      some { contextId := "u", dataMap := [] } :=
  ⟨(appendContextData_correlation c7r1 "u").1 _ rfl,
    ⟨by decide, by
      have := (appendContextData_correlation c7r2 "u").2.1 rfl (by decide)
      simpa using this⟩,
    (appendContextData_correlation c7r3 "u").2.2 rfl rfl⟩

/-! ## Claim C9 -/

/-- Claim C9: `NewIngressLogMiddleware` with a non-nil `Config` whose
`ExcludeOpt` is nil: `NewConfig` installs a fresh empty `ExcludeOption`
into the caller-supplied `Config` itself (the heap cell at the caller's
address is mutated, all other cells untouched) and the middleware stores
the very same pointer. -/
theorem newIngressLogMiddleware_aliases_and_mutates (p freshAddr : Nat) (heap : Nat → Config)
    (hnil : (heap p).ExcludeOpt = none) :
    (NewIngressLogMiddlewareHeap [some p] heap freshAddr).fst.config = p ∧
    (NewIngressLogMiddlewareHeap [some p] heap freshAddr).snd p =
      { heap p with ExcludeOpt := some ExcludeOption.zero } ∧
    ∀ q, q ≠ p → (NewIngressLogMiddlewareHeap [some p] heap freshAddr).snd q = heap q := by
  simp only [NewIngressLogMiddlewareHeap, NewConfigHeap, hnil]
  refine ⟨by simp, by simp, ?_⟩
  intro q hq
  simp [hq]

def c9heap : Nat → Config :=
  fun _ => { ExcludeOpt := none, DisableIngressLog := false, FieldOpt := none }

/-- Witness for claim C9 at a concrete heap and address. -/
theorem newIngressLogMiddleware_aliases_and_mutates_witness :
    (c9heap 5).ExcludeOpt = none ∧
    (NewIngressLogMiddlewareHeap [some 5] c9heap 9).fst.config = 5 ∧
    (NewIngressLogMiddlewareHeap [some 5] c9heap 9).snd 5 =
      { c9heap 5 with ExcludeOpt := some ExcludeOption.zero } :=
  ⟨rfl, (newIngressLogMiddleware_aliases_and_mutates 5 9 c9heap rfl).1,
    (newIngressLogMiddleware_aliases_and_mutates 5 9 c9heap rfl).2.1⟩

end Httpmiddleware
